import Mathlib

/-!
Shallow embedding of the miami-api booking aggregation core.

The repository is a Node/Express service that aggregates reservation data
from the Beds24 upstream API.  This file embeds the algorithmic core —
the merge-by-identifier fold, the pagination loop, the cancellation
filters, the view assemblers (overview / calendar / movements /
housekeeping / revenue / search), the fixed-timezone date arithmetic and
the direct-vs-proxy routing state — as executable Lean definitions, and
proves the specification's claims about them.

Conventions used in the embedding:
* A JS `Map` keyed by booking id is an association list in insertion
  order (`BookingMap`); `Map.set` updates an existing key in place and
  appends a new key at the end, exactly as JS does.
* JS numbers that hold monetary amounts are modelled as `ℚ`; a
  price/deposit field is `Option ℚ`, `none` standing for a value on
  which `parseFloat` yields `NaN` (missing or non-numeric).
* JS string truthiness (`!q`): `none` and `some ""` are falsy.
* Instants are minutes since the epoch (`Int`); civil dates are day
  numbers since the epoch, converted to/from Y-M-D by the standard
  Gregorian algorithms.
-/

namespace Miami

/-- A booking record, with the fields the aggregation core consumes:
`id` (merge key), lifecycle `status`, civil `arrival`/`departure` dates
as YYYY-MM-DD strings, monetary `price`/`deposit` (`none` = missing or
non-numeric, i.e. `parseFloat` gives `NaN`), and a free `tag` field
standing for the remaining payload (used to tell two versions of the
same reservation apart). -/
structure Booking where
  id : Int
  status : String := ""
  arrival : String := ""
  departure : String := ""
  price : Option ℚ := none
  deposit : Option ℚ := none
  tag : String := ""
deriving Repr, DecidableEq

/-- JS `Map` keyed by booking id, in insertion order. -/
abbrev BookingMap := List (Int × Booking)

/-- First-match lookup in the association list (JS `Map.get`). -/
def mapLookup : BookingMap → Int → Option Booking
  | [], _ => none
  | p :: m, i => if p.1 = i then some p.2 else mapLookup m i

/-- Key-presence test (JS `Map.has`, used internally by `Map.set`). -/
def mapHasKey : BookingMap → Int → Bool
  | [], _ => false
  | p :: m, i => p.1 = i || mapHasKey m i

/-- JS `map.set(b.id, b)`: update an existing key in place (keeping its
position), otherwise append the new entry at the end. -/
def mapSet (m : BookingMap) (b : Booking) : BookingMap :=
  if mapHasKey m b.id then
    m.map (fun p => if p.1 = b.id then (p.1, b) else p)
  else
    m ++ [(b.id, b)]

/-- The fold `list.forEach(b => bookingMap.set(b.id, b))` over an empty
`Map`, as used by `GET /getBookings` (src/unnamed/part_000 lines
457-460) and `GET /api/calendar` (lines 622-625). -/
def mapFoldSet (bs : List Booking) : BookingMap :=
  bs.foldl mapSet []

/-- `Array.from(map.values())`: the values in insertion order. -/
def mapValues (m : BookingMap) : List Booking :=
  m.map (fun p => p.2)

/-- The keys of the map in insertion order. -/
def mapKeys (m : BookingMap) : List Int :=
  m.map (fun p => p.1)

/-- The identifiers of a record list. -/
def ids (bs : List Booking) : List Int :=
  bs.map (fun b => b.id)

/-- The `seen`-set duplicate filter of `GET /dashboard/bookings`
(src/index.js lines 231-236): keep a record iff its id has not been
seen yet, so the FIRST occurrence of each identifier survives. -/
def dedupFirst : List Int → List Booking → List Booking
  | _, [] => []
  | seen, b :: rest =>
    if b.id ∈ seen then dedupFirst seen rest
    else b :: dedupFirst (b.id :: seen) rest

/-- Left-biased choice on `Option` (`x` if present, else `y`); used to
state where a record with a given id comes from in a concatenation. -/
def oelse : Option Booking → Option Booking → Option Booking
  | some x, _ => some x
  | none, y => y

/-- The first record with identifier `i` in a list. -/
def firstWith : List Booking → Int → Option Booking
  | [], _ => none
  | b :: t, i => if b.id = i then some b else firstWith t i

/-- The last record with identifier `i` in a list. -/
def lastWith : List Booking → Int → Option Booking
  | [], _ => none
  | b :: t, i => oelse (lastWith t i) (if b.id = i then some b else none)

/-- The cancellation filter `b => b.status !== 'cancelled'` used by the
dashboard views.  A missing status (modelled `""`) passes, as `undefined
!== 'cancelled'` does in JS. -/
def notCancelled (b : Booking) : Bool :=
  b.status != "cancelled"

/-- Response of `GET /api/overview` (src/unnamed/part_000 lines
557-592): the three raw sets each stripped of cancelled records, plus
their counts. -/
structure OverviewView where
  occupied : Nat
  checkIns : Nat
  checkOuts : Nat
  current : List Booking
  arrivals : List Booking
  departures : List Booking
deriving Repr, DecidableEq

/-- `GET /api/overview`: filter each of the three parallel-fetched sets
by `status !== 'cancelled'` and report counts plus the filtered sets. -/
def overviewView (current arrivals departures : List Booking) : OverviewView :=
  let activeBookings := current.filter notCancelled
  let todayArrivals := arrivals.filter notCancelled
  let todayDepartures := departures.filter notCancelled
  { occupied := activeBookings.length
    checkIns := todayArrivals.length
    checkOuts := todayDepartures.length
    current := activeBookings
    arrivals := todayArrivals
    departures := todayDepartures }

/-- `GET /api/calendar` merged set (src/unnamed/part_000 lines 622-627):
concatenate arrivals-in-range, departures-in-range and current, filter
out cancelled, fold into the id-keyed `Map`, and take its values. -/
def calendarMerge (arrivals departures current : List Booking) : List Booking :=
  mapValues (mapFoldSet ((arrivals ++ departures ++ current).filter notCancelled))

/-- Response of `GET /api/movements` (src/unnamed/part_000 lines
644-665): arrivals and departures, each independently stripped of
cancelled records and NOT merged. -/
structure MovementsView where
  checkInsCount : Nat
  checkIns : List Booking
  checkOutsCount : Nat
  checkOuts : List Booking
deriving Repr, DecidableEq

/-- `GET /api/movements`. -/
def movementsView (arrivalsRaw departuresRaw : List Booking) : MovementsView :=
  let arrivals := arrivalsRaw.filter notCancelled
  let departures := departuresRaw.filter notCancelled
  { checkInsCount := arrivals.length
    checkIns := arrivals
    checkOutsCount := departures.length
    checkOuts := departures }

/-- Response of `GET /api/housekeeping` (src/unnamed/part_000 lines
673-705).  `stayoversCount` is the `summary.stayovers` field, computed
in the code as `current.length - departures.length` (an `Int`, since
the JS subtraction can go negative); `stayovers` is the classified list
`current.filter(c => c.departure !== date)`. -/
structure HousekeepingView where
  occupied : Nat
  departing : Nat
  arriving : Nat
  stayoversCount : Int
  departures : List Booking
  arrivals : List Booking
  stayovers : List Booking
deriving Repr, DecidableEq

/-- `GET /api/housekeeping`. -/
def housekeepingView (currentRaw departuresRaw arrivalsRaw : List Booking)
    (date : String) : HousekeepingView :=
  let current := currentRaw.filter notCancelled
  let departures := departuresRaw.filter notCancelled
  let arrivals := arrivalsRaw.filter notCancelled
  { occupied := current.length
    departing := departures.length
    arriving := arrivals.length
    stayoversCount := (current.length : Int) - (departures.length : Int)
    departures := departures
    arrivals := arrivals
    stayovers := current.filter (fun c => c.departure != date) }

/-- Totals object of `GET /api/revenue` (src/unnamed/part_000 lines
739-746). -/
structure RevenueTotals where
  totalPrice : ℚ
  totalDeposit : ℚ
  bookingCount : Nat
  outstanding : ℚ
deriving Repr, DecidableEq

/-- `parseFloat(x) || 0`: a field whose `parseFloat` is `NaN` (missing
or non-numeric) contributes `0`; a parsed number contributes itself
(`0 || 0` is also `0`, so the coercion is the identity on numbers). -/
def numOr0 : Option ℚ → ℚ
  | none => 0
  | some q => q

/-- The reducer body of the revenue totals `reduce` (src/unnamed/
part_000 lines 739-744). -/
def revenueStep (acc : RevenueTotals) (b : Booking) : RevenueTotals :=
  { acc with
    totalPrice := acc.totalPrice + numOr0 b.price
    totalDeposit := acc.totalDeposit + numOr0 b.deposit
    bookingCount := acc.bookingCount + 1 }

/-- `GET /api/revenue`: drop cancelled records, then reduce summing
`parseFloat(b.price) || 0` and `parseFloat(b.deposit) || 0` while
counting records, and finally set `outstanding = totalPrice -
totalDeposit`.  Returns the totals and the filtered booking list. -/
def revenueView (fetched : List Booking) : RevenueTotals × List Booking :=
  let bookings := fetched.filter notCancelled
  let acc := bookings.foldl revenueStep
    ({ totalPrice := 0, totalDeposit := 0, bookingCount := 0, outstanding := 0 } : RevenueTotals)
  ({ acc with outstanding := acc.totalPrice - acc.totalDeposit }, bookings)

/-- Result of one `fetchAllBookingPages` run: the concatenated records,
the returned `totalPages`, the number of upstream calls issued, and the
number of inter-page delays executed. -/
structure FetchResult where
  bookings : List Booking
  totalPages : Nat
  calls : Nat
  delays : Nat
deriving Repr, DecidableEq

/-- The `while` loop of `fetchAllBookingPages` (src/unnamed/part_000
lines 381-407).  The upstream is an oracle mapping a page number to the
page's records and its `pages.nextPageExists === true` flag.  State
carried around the loop: `currentPage`, `totalPages`, `hasMorePages`,
the accumulated bookings, and instrumentation counters for upstream
calls and inter-page delays.  Each iteration fetches `currentPage`,
appends its records, recomputes `hasMorePages`, and — only when a next
page exists — increments `currentPage`, sets `totalPages :=
currentPage`, and sleeps 50 ms before re-testing
`hasMorePages && currentPage <= maxPages`. -/
def fetchAllLoop (upstream : Nat → List Booking × Bool) (maxPages : Nat)
    (currentPage totalPages : Nat) (hasMore : Bool) (acc : List Booking)
    (calls delays : Nat) : FetchResult :=
  if hasMore = true ∧ currentPage ≤ maxPages then
    if (upstream currentPage).2 = true then
      fetchAllLoop upstream maxPages (currentPage + 1) (currentPage + 1)
        (upstream currentPage).2 (acc ++ (upstream currentPage).1) (calls + 1) (delays + 1)
    else
      fetchAllLoop upstream maxPages currentPage totalPages
        (upstream currentPage).2 (acc ++ (upstream currentPage).1) (calls + 1) delays
  else
    { bookings := acc, totalPages := totalPages, calls := calls, delays := delays }
termination_by (maxPages + 1 - currentPage, if hasMore then 1 else 0)
decreasing_by
  · apply Prod.Lex.left
    omega
  · apply Prod.Lex.right
    simp_all

/-- `fetchAllBookingPages(params, maxPages)` (default `maxPages = 50`):
run the loop from `currentPage = 1`, `totalPages = 1`,
`hasMorePages = true` with an empty accumulator. -/
def fetchAllBookingPages (upstream : Nat → List Booking × Bool)
    (maxPages : Nat) : FetchResult :=
  fetchAllLoop upstream maxPages 1 1 true [] 0 0

/-- Days since 1970-01-01 of the Gregorian date `y-m-d` (the civil
calendar used by both the YYYY-MM-DD request strings and the `en-CA`
rendering), by the standard era decomposition with floor division. -/
def daysFromCivil (y m d : Int) : Int :=
  let yAdj : Int := if m ≤ 2 then y - 1 else y
  let era : Int := Int.fdiv yAdj 400
  let yoe : Int := yAdj - era * 400
  let mp : Int := if 2 < m then m - 3 else m + 9
  let doy : Int := Int.fdiv (153 * mp + 2) 5 + d - 1
  let doe : Int := yoe * 365 + Int.fdiv yoe 4 - Int.fdiv yoe 100 + doy
  era * 146097 + doe - 719468

/-- Gregorian date `(y, m, d)` of a day number since 1970-01-01
(inverse of `daysFromCivil`). -/
def civilFromDays (z : Int) : Int × Int × Int :=
  let z2 : Int := z + 719468
  let era : Int := Int.fdiv z2 146097
  let doe : Int := z2 - era * 146097
  let yoe : Int :=
    Int.fdiv (doe - Int.fdiv doe 1460 + Int.fdiv doe 36524 - Int.fdiv doe 146096) 365
  let y : Int := yoe + era * 400
  let doy : Int := doe - (365 * yoe + Int.fdiv yoe 4 - Int.fdiv yoe 100)
  let mp : Int := Int.fdiv (5 * doy + 2) 153
  let d : Int := doy - Int.fdiv (153 * mp + 2) 5 + 1
  let m : Int := if mp < 10 then mp + 3 else mp - 9
  (if m ≤ 2 then y + 1 else y, m, d)

/-- The fixed timezone `Asia/Dhaka` is UTC+6: 360 minutes. -/
def dhakaOffset : Int := 360

/-- The executing host's timezone, as the pair of conversions JS `Date`
uses between UTC epoch minutes and host-local clock minutes
(`getDate`/`setDate` operate on the local side). -/
structure HostTZ where
  toLocal : Int → Int
  toUTC : Int → Int

/-- A host timezone with a constant UTC offset of `o` minutes (e.g.
`fixedOffset 0` is UTC, `fixedOffset 360` is the fixed Asia/Dhaka
zone itself). -/
def fixedOffset (o : Int) : HostTZ :=
  { toLocal := fun t => t + o, toUTC := fun l => l - o }

/-- The end-date computation of `GET /api/calendar` (src/unnamed/
part_000 lines 607-609), on a host with timezone `tz`:
`new Date(start + 'T00:00:00+06:00')` builds the instant of midnight
of `startDay` at UTC+6; `setDate(getDate() + days)` decomposes that
instant into the HOST-LOCAL calendar date and time-of-day, adds `days`
to the local calendar date (JS normalises day-of-month overflow to
exactly this), and converts back to an instant through the host zone;
`toLocaleDateString('en-CA', Asia/Dhaka)` then renders that instant's
civil date at UTC+6.  Dates are day numbers; instants epoch minutes. -/
def calendarEndDay (tz : HostTZ) (startDay days : Int) : Int :=
  let t0 : Int := startDay * 1440 - dhakaOffset
  let l0 : Int := tz.toLocal t0
  let localDay : Int := Int.fdiv l0 1440
  let tod : Int := l0 - 1440 * localDay
  let l1 : Int := 1440 * (localDay + days) + tod
  let t1 : Int := tz.toUTC l1
  Int.fdiv (t1 + dhakaOffset) 1440

/-- America/New_York around the 2024 spring-forward transition
(2024-03-10 07:00 UTC, local clocks jump 02:00 EST → 03:00 EDT):
offset −300 minutes before the transition instant, −240 after; local
clock readings at or past 03:00 EDT convert back with the −240 offset.
A concrete host timezone whose offset is not constant. -/
def nySpring2024 : HostTZ :=
  { toLocal := fun t =>
      if t < (daysFromCivil 2024 3 10) * 1440 + 420 then t - 300 else t - 240
    toUTC := fun l =>
      if l < (daysFromCivil 2024 3 10) * 1440 + 420 - 240 then l + 300 else l + 240 }

/-- Decoded upstream response payload, with the two failure indicators
`fetchBeds24Direct` inspects: the `success` flag (`none` = absent) and
the `error` message (`none` = absent). -/
structure UpstreamPayload where
  success : Option Bool := none
  error : Option String := none
  records : List Booking := []
deriving Repr, DecidableEq

/-- JS truthiness of an optional string field: absent and `""` are
falsy, any other string is truthy. -/
def strTruthy : Option String → Bool
  | none => false
  | some s => s != ""

/-- The payload check of `fetchBeds24Direct` (src/unnamed/part_000
lines 236-238): `if (data.success === false || data.error) throw new
Error(data.error || 'API request failed')`. -/
def directPayloadCheck (p : UpstreamPayload) : Except String UpstreamPayload :=
  if p.success == some false || strTruthy p.error then
    Except.error
      (match p.error with
       | some s => if s != "" then s else "API request failed"
       | none => "API request failed")
  else
    Except.ok p

/-- `fetchBeds24Direct` as a function of its transport outcome: a
transport failure propagates as-is, a decoded payload goes through the
failure-flag check. -/
def fetchBeds24Direct (transport : Except String UpstreamPayload) :
    Except String UpstreamPayload :=
  match transport with
  | Except.error e => Except.error e
  | Except.ok p => directPayloadCheck p

/-- Which route served a `fetchBeds24` call. -/
inductive FetchRoute
  | direct
  | proxy
deriving Repr, DecidableEq

/-- Outcome of one `fetchBeds24` call: the value of the process-wide
`useDirectApi` flag after the call, the route that produced the
returned value, and the returned value itself. -/
structure FetchOutcome where
  useDirectApiAfter : Bool
  route : FetchRoute
  result : Except String UpstreamPayload
deriving Repr

/-- `fetchBeds24` (src/unnamed/part_000 lines 173-189) as a function of
the current `useDirectApi` flag and the two oracle outcomes.  When the
flag is set, the direct call is tried first (`getToken()` returns the
constant permanent read token, so the token is always truthy); if it
throws — transport failure or payload failure-flag — the error is
caught, `useDirectApi` is set to `false`, and the call falls through to
the proxy.  The proxy path (`fetchBeds24ViaProxy`, lines 243-284) only
normalises the decoded payload shape and never inspects `success` or
`error`, so its payload is returned unchecked; only a proxy transport
failure escapes (it is outside the `try`). -/
def fetchBeds24 (useDirectApi : Bool) (transport proxyResult : Except String UpstreamPayload) :
    FetchOutcome :=
  if useDirectApi then
    match fetchBeds24Direct transport with
    | Except.ok p => { useDirectApiAfter := true, route := FetchRoute.direct, result := Except.ok p }
    | Except.error _ => { useDirectApiAfter := false, route := FetchRoute.proxy, result := proxyResult }
  else
    { useDirectApiAfter := false, route := FetchRoute.proxy, result := proxyResult }

/-- Oracle inputs of one `fetchBeds24` invocation. -/
structure StepInput where
  transport : Except String UpstreamPayload
  proxyResult : Except String UpstreamPayload

/-- One step of the process: a `fetchBeds24` call reads and rewrites
the process-wide `useDirectApi` flag (the only two writes to the flag
in the repository are its initialiser, line 69, and line 183 inside the
`catch`). -/
def stepFetch (useDirectApi : Bool) (i : StepInput) : Bool × FetchOutcome :=
  let o := fetchBeds24 useDirectApi i.transport i.proxyResult
  (o.useDirectApiAfter, o)

/-- The flag after a whole sequence of `fetchBeds24` calls. -/
def runFetches (useDirectApi : Bool) : List StepInput → Bool
  | [] => useDirectApi
  | i :: rest => runFetches (stepFetch useDirectApi i).1 rest

/-- Outcome of a view handler, for the validation claims: the HTTP
status, the error message if any, and how many upstream calls the
handler issued. -/
structure HandlerOutcome where
  status : Nat
  errorMsg : Option String
  upstreamCalls : Nat
deriving Repr, DecidableEq

/-- `GET /api/search` (src/unnamed/part_000 lines 763-797): if neither
`q` nor `checkIn` is truthy, respond 400 with the validation message
before any upstream call; otherwise run `fetchAllBookingPages(params,
10)` and respond 200. -/
def searchHandler (q checkIn checkOut : Option String)
    (upstream : Nat → List Booking × Bool) : HandlerOutcome :=
  if !strTruthy q && !strTruthy checkIn then
    { status := 400, errorMsg := some "Required: q (search term) or checkIn date",
      upstreamCalls := 0 }
  else
    { status := 200, errorMsg := none,
      upstreamCalls := (fetchAllBookingPages upstream 10).calls }

/-- `GET /getBookings/range` (src/unnamed/part_000 lines 484-525): if
`from` or `to` is missing (falsy), respond 400 before any upstream
call; otherwise run `fetchAllBookingPages(params, 30)` and respond
200.  (`checkOut` in search and `type` here only shape the upstream
query parameters, which the upstream oracle already abstracts.) -/
def rangeHandler (fromParam toParam typeParam : Option String)
    (upstream : Nat → List Booking × Bool) : HandlerOutcome :=
  if !strTruthy fromParam || !strTruthy toParam then
    { status := 400, errorMsg := some "Required: from and to dates (YYYY-MM-DD format)",
      upstreamCalls := 0 }
  else
    { status := 200, errorMsg := none,
      upstreamCalls := (fetchAllBookingPages upstream 30).calls }

/-- Identifier-1 record as reported by the first partial set. -/
def exSetAVersion : Booking :=
  { id := 1, status := "confirmed", tag := "setA version" }

/-- Identifier-1 record as reported by the second partial set, with a
different field value. -/
def exSetBVersion : Booking :=
  { id := 1, status := "confirmed", tag := "setB version" }

/-- Revenue example: price 100, deposit 50. -/
def revBooking1 : Booking :=
  { id := 1, status := "confirmed", price := some 100, deposit := some 50 }

/-- Revenue example: price 200, deposit 0. -/
def revBooking2 : Booking :=
  { id := 2, status := "confirmed", price := some 200, deposit := some 0 }

/-- Revenue example: non-numeric price (`parseFloat("bad")` is `NaN`,
modelled `none`), deposit 20. -/
def revBooking3 : Booking :=
  { id := 3, status := "confirmed", price := none, deposit := some 20 }

/-- The three-booking revenue example of the spec. -/
def revExample : List Booking :=
  [revBooking1, revBooking2, revBooking3]

/-- Housekeeping example: a current-occupancy record departing the day
after the query date. -/
def hkCurrentGuest : Booking :=
  { id := 1, status := "confirmed", departure := "2024-05-11" }

/-- Housekeeping example: a record departing on the query date that the
upstream did not include in the current-occupancy set. -/
def hkDepartingGuest : Booking :=
  { id := 2, status := "confirmed", departure := "2024-05-10" }

/-- An upstream payload carrying an explicit failure flag and an error
message. -/
def failedPayload : UpstreamPayload :=
  { success := some false, error := some "upstream rejected the request" }

/-- A payload as returned by the proxy fallback (never inspected for
failure indicators). -/
def proxyPayload : UpstreamPayload :=
  { records := [{ id := 7, status := "confirmed" }] }

/-- A synthetic upstream that always reports that a next page exists. -/
def alwaysNextUpstream : Nat → List Booking × Bool :=
  fun _ => ([], true)

/-- A synthetic upstream that reports a next page on page 1 and no next
page on page 2 (the loop stops after fetching two pages). -/
def stopsAtTwoUpstream : Nat → List Booking × Bool :=
  fun k => ([], k == 1)

theorem oelse_none_right (x : Option Booking) : oelse x none = x := by
  cases x <;> rfl

theorem oelse_assoc (x y z : Option Booking) :
    oelse (oelse x y) z = oelse x (oelse y z) := by
  cases x <;> rfl

theorem mapSet_cons_ne (p : Int × Booking) (t : BookingMap) (b : Booking)
    (h : p.1 ≠ b.id) : mapSet (p :: t) b = p :: mapSet t b := by
  by_cases ht : mapHasKey t b.id <;>
    simp [mapSet, mapHasKey, h, ht]

theorem mapLookup_map_update_ne (b : Booking) (i : Int) (h : b.id ≠ i) :
    ∀ t : BookingMap,
      mapLookup (t.map (fun q => if q.1 = b.id then (q.1, b) else q)) i
        = mapLookup t i := by
  intro t
  induction t with
  | nil => rfl
  | cons q t ih =>
    by_cases hq : q.1 = b.id
    · have hqi : q.1 ≠ i := by rw [hq]; exact h
      simp [mapLookup, hq, hqi, ih, h]
    · simp only [List.map_cons, if_neg hq, mapLookup, ih]

theorem mapSet_lookup (b : Booking) (i : Int) :
    ∀ m : BookingMap,
      mapLookup (mapSet m b) i = if b.id = i then some b else mapLookup m i := by
  intro m
  induction m with
  | nil => by_cases h : b.id = i <;> simp [mapSet, mapHasKey, mapLookup, h]
  | cons p t ih =>
    by_cases hp : p.1 = b.id
    · have hcond : mapHasKey (p :: t) b.id = true := by simp [mapHasKey, hp]
      by_cases hbi : b.id = i
      · have hpi : p.1 = i := by rw [hp, hbi]
        rw [mapSet, if_pos hcond]
        simp [mapLookup, hp, hpi, hbi]
      · have hpi : p.1 ≠ i := by rw [hp]; exact hbi
        rw [mapSet, if_pos hcond]
        simp [mapLookup, hp, hpi, hbi,
          mapLookup_map_update_ne b i hbi t]
    · rw [mapSet_cons_ne p t b hp]
      by_cases hpi : p.1 = i
      · have hbi : b.id ≠ i := by
          intro hc; exact hp (by rw [hpi, hc])
        simp [mapLookup, hpi, hbi]
      · simp [mapLookup, hpi, ih]

theorem foldl_mapSet_lookup (i : Int) :
    ∀ (l : List Booking) (m : BookingMap),
      mapLookup (l.foldl mapSet m) i = oelse (lastWith l i) (mapLookup m i) := by
  intro l
  induction l with
  | nil => intro m; rfl
  | cons b t ih =>
    intro m
    rw [List.foldl_cons, ih, lastWith, oelse_assoc, mapSet_lookup]
    by_cases h : b.id = i <;> simp [h, oelse]

theorem mapFoldSet_lookup (l : List Booking) (i : Int) :
    mapLookup (mapFoldSet l) i = lastWith l i := by
  rw [mapFoldSet, foldl_mapSet_lookup]
  exact oelse_none_right _

theorem mapKeys_map_update (b : Booking) (t : BookingMap) :
    mapKeys (t.map (fun q => if q.1 = b.id then (q.1, b) else q)) = mapKeys t := by
  induction t with
  | nil => rfl
  | cons q t ih =>
    by_cases hq : q.1 = b.id <;> simp only [List.map_cons, mapKeys, if_pos, if_neg, hq] <;>
      simp [mapKeys] at ih ⊢ <;> exact ih

theorem mapHasKey_false_not_mem (i : Int) :
    ∀ m : BookingMap, mapHasKey m i = false → i ∉ mapKeys m := by
  intro m
  induction m with
  | nil => intro _; simp [mapKeys]
  | cons p t ih =>
    intro h
    simp only [mapHasKey, Bool.or_eq_false_iff, decide_eq_false_iff_not] at h
    simp only [mapKeys, List.map_cons, List.mem_cons, not_or]
    exact ⟨fun hc => h.1 hc.symm, by
      have := ih h.2
      simpa [mapKeys] using this⟩

theorem mapKeys_mapSet_nodup (b : Booking) (m : BookingMap)
    (h : (mapKeys m).Nodup) : (mapKeys (mapSet m b)).Nodup := by
  by_cases hk : mapHasKey m b.id
  · simpa [mapSet, hk, mapKeys_map_update] using h
  · have hnm : b.id ∉ mapKeys m :=
      mapHasKey_false_not_mem b.id m (by simpa using hk)
    have : mapKeys (m ++ [(b.id, b)]) = mapKeys m ++ [b.id] := by
      simp [mapKeys]
    rw [mapSet, if_neg (by simpa using hk), this]
    simp [List.nodup_append, h]
    intro ha
    exact hnm ha

theorem foldl_mapSet_keys_nodup :
    ∀ (l : List Booking) (m : BookingMap),
      (mapKeys m).Nodup → (mapKeys (l.foldl mapSet m)).Nodup := by
  intro l
  induction l with
  | nil => intro m h; exact h
  | cons b t ih =>
    intro m h
    exact ih (mapSet m b) (mapKeys_mapSet_nodup b m h)

theorem mapSet_val_id (b : Booking) (m : BookingMap)
    (h : ∀ p ∈ m, (p : Int × Booking).2.id = p.1) :
    ∀ p ∈ mapSet m b, (p : Int × Booking).2.id = p.1 := by
  intro p hp
  by_cases hk : mapHasKey m b.id
  · rw [mapSet, if_pos hk] at hp
    obtain ⟨q, hq, hpq⟩ := List.mem_map.mp hp
    by_cases hqb : q.1 = b.id
    · rw [if_pos hqb] at hpq
      rw [← hpq]
      exact hqb.symm
    · rw [if_neg hqb] at hpq
      rw [← hpq]
      exact h q hq
  · rw [mapSet, if_neg hk] at hp
    rcases List.mem_append.mp hp with hm | hs
    · exact h p hm
    · simp at hs
      rw [hs]

theorem foldl_mapSet_val_id :
    ∀ (l : List Booking) (m : BookingMap),
      (∀ p ∈ m, (p : Int × Booking).2.id = p.1) →
      ∀ p ∈ l.foldl mapSet m, (p : Int × Booking).2.id = p.1 := by
  intro l
  induction l with
  | nil => intro m h; exact h
  | cons b t ih =>
    intro m h
    exact ih (mapSet m b) (mapSet_val_id b m h)

theorem ids_mapValues_eq_keys :
    ∀ m : BookingMap, (∀ p ∈ m, (p : Int × Booking).2.id = p.1) →
      ids (mapValues m) = mapKeys m := by
  intro m
  induction m with
  | nil => intro _; rfl
  | cons p t ih =>
    intro h
    have hp : p.2.id = p.1 := h p (by simp)
    simp only [ids, mapValues, mapKeys, List.map_cons, List.map_map] at ih ⊢
    rw [hp]
    have := ih (fun q hq => h q (by simp [hq]))
    simp only [List.map_map] at this
    rw [this]

theorem firstWith_mapValues (i : Int) :
    ∀ m : BookingMap, (∀ p ∈ m, (p : Int × Booking).2.id = p.1) →
      firstWith (mapValues m) i = mapLookup m i := by
  intro m
  induction m with
  | nil => intro _; rfl
  | cons p t ih =>
    intro h
    have hp : p.2.id = p.1 := h p (by simp)
    simp only [mapValues, List.map_cons, firstWith, mapLookup, hp]
    by_cases hpi : p.1 = i
    · simp [hpi]
    · simp only [if_neg hpi]
      exact ih (fun q hq => h q (by simp [hq]))

theorem lastWith_append (A B : List Booking) (i : Int) :
    lastWith (A ++ B) i = oelse (lastWith B i) (lastWith A i) := by
  induction A with
  | nil => rw [List.nil_append, lastWith, oelse_none_right]
  | cons a A ih =>
    rw [List.cons_append, lastWith, ih, oelse_assoc, lastWith]

theorem firstWith_append (A B : List Booking) (i : Int) :
    firstWith (A ++ B) i = oelse (firstWith A i) (firstWith B i) := by
  induction A with
  | nil => rfl
  | cons a A ih =>
    by_cases h : a.id = i <;> simp [firstWith, h, ih, oelse]

theorem lastWith_isSome (i : Int) :
    ∀ B : List Booking, (∃ b ∈ B, (b : Booking).id = i) →
      ∃ x, lastWith B i = some x := by
  intro B
  induction B with
  | nil => intro h; simp at h
  | cons b t ih =>
    intro h
    obtain ⟨c, hc, hci⟩ := h
    rcases List.mem_cons.mp hc with rfl | hct
    · cases hx : lastWith t i with
      | none => exact ⟨c, by rw [lastWith, hx, if_pos hci]; rfl⟩
      | some x => exact ⟨x, by rw [lastWith, hx]; rfl⟩
    · obtain ⟨x, hx⟩ := ih ⟨c, hct, hci⟩
      exact ⟨x, by rw [lastWith, hx]; rfl⟩

theorem firstWith_isSome (i : Int) :
    ∀ A : List Booking, (∃ a ∈ A, (a : Booking).id = i) →
      ∃ x, firstWith A i = some x := by
  intro A
  induction A with
  | nil => intro h; simp at h
  | cons a t ih =>
    intro h
    by_cases ha : a.id = i
    · exact ⟨a, by rw [firstWith, if_pos ha]⟩
    · obtain ⟨c, hc, hci⟩ := h
      rcases List.mem_cons.mp hc with rfl | hct
      · exact absurd hci ha
      · obtain ⟨x, hx⟩ := ih ⟨c, hct, hci⟩
        exact ⟨x, by rw [firstWith, if_neg ha]; exact hx⟩

theorem dedupFirst_firstWith (i : Int) :
    ∀ (l : List Booking) (seen : List Int), i ∉ seen →
      firstWith (dedupFirst seen l) i = firstWith l i := by
  intro l
  induction l with
  | nil => intro seen _; rfl
  | cons b t ih =>
    intro seen hseen
    by_cases hb : b.id ∈ seen
    · have hbi : b.id ≠ i := fun hc => hseen (hc ▸ hb)
      rw [dedupFirst, if_pos hb, firstWith, if_neg hbi]
      exact ih seen hseen
    · rw [dedupFirst, if_neg hb]
      by_cases hbi : b.id = i
      · rw [firstWith, if_pos hbi, firstWith, if_pos hbi]
      · rw [firstWith, if_neg hbi, firstWith, if_neg hbi]
        exact ih (b.id :: seen) (by
          intro hc
          rcases List.mem_cons.mp hc with hc1 | hc2
          · exact hbi hc1.symm
          · exact hseen hc2)

theorem dedupFirst_seen_not_mem (i : Int) :
    ∀ (l : List Booking) (seen : List Int), i ∈ seen →
      i ∉ ids (dedupFirst seen l) := by
  intro l
  induction l with
  | nil => intro seen _; simp [dedupFirst, ids]
  | cons b t ih =>
    intro seen hseen
    by_cases hb : b.id ∈ seen
    · rw [dedupFirst, if_pos hb]
      exact ih seen hseen
    · rw [dedupFirst, if_neg hb]
      simp only [ids, List.map_cons, List.mem_cons, not_or]
      constructor
      · intro hc
        exact hb (hc ▸ hseen)
      · have := ih (b.id :: seen) (List.mem_cons_of_mem _ hseen)
        simpa [ids] using this

theorem dedupFirst_ids_nodup :
    ∀ (l : List Booking) (seen : List Int), (ids (dedupFirst seen l)).Nodup := by
  intro l
  induction l with
  | nil => intro seen; simp [dedupFirst, ids]
  | cons b t ih =>
    intro seen
    by_cases hb : b.id ∈ seen
    · rw [dedupFirst, if_pos hb]
      exact ih seen
    · rw [dedupFirst, if_neg hb]
      simp only [ids, List.map_cons, List.nodup_cons]
      constructor
      · have := dedupFirst_seen_not_mem b.id t (b.id :: seen) (by simp)
        simpa [ids] using this
      · have := ih (b.id :: seen)
        simpa [ids] using this

/-- Claim C1 (amended).  Merging partial sets in the fixed fetch-list
order `[setA, setB]` always yields exactly one record per identifier,
deterministically (the merges are pure functions of the concatenation
order).  In the `Map`-fold merges (`GET /getBookings` default listing
and `GET /api/calendar`) the surviving record for an identifier that
occurs in `setB` is setB's (last) version — last-source-wins.  In the
`seen`-set filter of `GET /dashboard/bookings` (src/index.js), however,
the surviving record for an identifier that occurs in `setA` is setA's
(first) version — first-source-wins, not last-source-wins. -/
theorem c1_merge_source_order (setA setB : List Booking) (i : Int) :
    (ids (mapValues (mapFoldSet (setA ++ setB)))).Nodup ∧
    (ids (dedupFirst [] (setA ++ setB))).Nodup ∧
    ((∃ b ∈ setB, (b : Booking).id = i) →
      firstWith (mapValues (mapFoldSet (setA ++ setB))) i = lastWith setB i) ∧
    ((∃ a ∈ setA, (a : Booking).id = i) →
      firstWith (dedupFirst [] (setA ++ setB)) i = firstWith setA i) := by
  have hval : ∀ p ∈ mapFoldSet (setA ++ setB), (p : Int × Booking).2.id = p.1 :=
    foldl_mapSet_val_id (setA ++ setB) [] (by intro p hp; simp at hp)
  refine ⟨?_, ?_, ?_, ?_⟩
  · rw [ids_mapValues_eq_keys _ hval]
    exact foldl_mapSet_keys_nodup (setA ++ setB) [] (by simp [mapKeys])
  · exact dedupFirst_ids_nodup (setA ++ setB) []
  · intro hB
    rw [firstWith_mapValues i _ hval, mapFoldSet_lookup, lastWith_append]
    obtain ⟨x, hx⟩ := lastWith_isSome i setB hB
    rw [hx]
    rfl
  · intro hA
    rw [dedupFirst_firstWith i (setA ++ setB) [] (by simp), firstWith_append]
    obtain ⟨x, hx⟩ := firstWith_isSome i setA hA
    rw [hx]
    rfl

/-- Witness for C1's amended theorem at the spec's concrete scenario:
two singleton sets both containing identifier 1 with different field
values. -/
theorem c1_merge_source_order_witness :
    firstWith (mapValues (mapFoldSet ([exSetAVersion] ++ [exSetBVersion]))) 1
      = lastWith [exSetBVersion] 1 ∧
    firstWith (dedupFirst [] ([exSetAVersion] ++ [exSetBVersion])) 1
      = firstWith [exSetAVersion] 1 :=
  ⟨(c1_merge_source_order [exSetAVersion] [exSetBVersion] 1).2.2.1 (by decide),
   (c1_merge_source_order [exSetAVersion] [exSetBVersion] 1).2.2.2 (by decide)⟩

/-- Counterexample to claim C1 as stated: in the `GET
/dashboard/bookings` duplicate filter (src/index.js lines 231-236),
with fetch-list order `[setA, setB]` and both sets containing
identifier 1 with different field values, the surviving record is
setA's version, not setB's. -/
theorem c1_counterexample :
    dedupFirst [] ([exSetAVersion] ++ [exSetBVersion]) = [exSetAVersion] ∧
    exSetAVersion ≠ exSetBVersion := by
  decide

theorem filter_all_self (p : Booking → Bool) (l : List Booking) :
    (l.filter p).all p = true := by
  rw [List.all_eq_true]
  intro x hx
  exact (List.mem_filter.mp hx).2

theorem filter_filter_all_left (p q : Booking → Bool) (l : List Booking) :
    ((l.filter p).filter q).all p = true := by
  rw [List.all_eq_true]
  intro x hx
  exact (List.mem_filter.mp (List.mem_filter.mp hx).1).2

theorem mapSet_values_pred (P : Booking → Bool) (b : Booking) (m : BookingMap)
    (hm : ∀ p ∈ m, P (p : Int × Booking).2 = true) (hb : P b = true) :
    ∀ p ∈ mapSet m b, P (p : Int × Booking).2 = true := by
  intro p hp
  by_cases hk : mapHasKey m b.id
  · rw [mapSet, if_pos hk] at hp
    obtain ⟨q, hq, hpq⟩ := List.mem_map.mp hp
    by_cases hqb : q.1 = b.id
    · rw [if_pos hqb] at hpq
      rw [← hpq]
      exact hb
    · rw [if_neg hqb] at hpq
      rw [← hpq]
      exact hm q hq
  · rw [mapSet, if_neg hk] at hp
    rcases List.mem_append.mp hp with h1 | h2
    · exact hm p h1
    · simp at h2
      rw [h2]
      exact hb

theorem foldl_mapSet_values_pred (P : Booking → Bool) :
    ∀ (l : List Booking) (m : BookingMap),
      (∀ p ∈ m, P (p : Int × Booking).2 = true) → (∀ x ∈ l, P x = true) →
      ∀ p ∈ l.foldl mapSet m, P (p : Int × Booking).2 = true := by
  intro l
  induction l with
  | nil => intro m hm _; exact hm
  | cons b t ih =>
    intro m hm hl
    exact ih (mapSet m b)
      (mapSet_values_pred P b m hm (hl b (by simp)))
      (fun x hx => hl x (by simp [hx]))

theorem calendarMerge_all_notCancelled (arrivals departures current : List Booking) :
    (calendarMerge arrivals departures current).all notCancelled = true := by
  rw [List.all_eq_true]
  intro x hx
  rw [calendarMerge] at hx
  obtain ⟨p, hp, hpx⟩ := List.mem_map.mp hx
  rw [← hpx]
  exact foldl_mapSet_values_pred notCancelled _ []
    (by intro q hq; simp at hq)
    (fun y hy => (List.mem_filter.mp hy).2)
    p hp

/-- Claim C2.  In every cancellation-filtering view — overview,
calendar, movements, housekeeping and revenue — every output record
collection is free of records with lifecycle status `"cancelled"`, for
every upstream record set. -/
theorem c2_cancellation_filter (cur arr dep fetched : List Booking) (date : String) :
    ((overviewView cur arr dep).current.all notCancelled = true ∧
     (overviewView cur arr dep).arrivals.all notCancelled = true ∧
     (overviewView cur arr dep).departures.all notCancelled = true) ∧
    (calendarMerge arr dep cur).all notCancelled = true ∧
    ((movementsView arr dep).checkIns.all notCancelled = true ∧
     (movementsView arr dep).checkOuts.all notCancelled = true) ∧
    ((housekeepingView cur dep arr date).departures.all notCancelled = true ∧
     (housekeepingView cur dep arr date).arrivals.all notCancelled = true ∧
     (housekeepingView cur dep arr date).stayovers.all notCancelled = true) ∧
    ((revenueView fetched).2.all notCancelled = true) := by
  refine ⟨⟨?_, ?_, ?_⟩, ?_, ⟨?_, ?_⟩, ⟨?_, ?_, ?_⟩, ?_⟩ <;>
    first
      | exact calendarMerge_all_notCancelled arr dep cur
      | exact filter_all_self notCancelled _
      | exact filter_filter_all_left notCancelled _ _

theorem fetchAllLoop_stop (u : Nat → List Booking × Bool) (m c t : Nat)
    (hm : Bool) (a : List Booking) (k d : Nat) (h : ¬(hm = true ∧ c ≤ m)) :
    fetchAllLoop u m c t hm a k d
      = { bookings := a, totalPages := t, calls := k, delays := d } := by
  rw [fetchAllLoop, if_neg h]

theorem fetchAllLoop_next (u : Nat → List Booking × Bool) (m c t : Nat)
    (a : List Booking) (k d : Nat) (hc : c ≤ m) (hn : (u c).2 = true) :
    fetchAllLoop u m c t true a k d
      = fetchAllLoop u m (c + 1) (c + 1) true (a ++ (u c).1) (k + 1) (d + 1) := by
  rw [fetchAllLoop, if_pos ⟨rfl, hc⟩, if_pos hn, hn]

theorem fetchAllLoop_last (u : Nat → List Booking × Bool) (m c t : Nat)
    (a : List Booking) (k d : Nat) (hc : c ≤ m) (hn : (u c).2 = false) :
    fetchAllLoop u m c t true a k d
      = { bookings := a ++ (u c).1, totalPages := t, calls := k + 1, delays := d } := by
  rw [fetchAllLoop, if_pos ⟨rfl, hc⟩, if_neg (by rw [hn]; exact Bool.false_ne_true), hn,
    fetchAllLoop_stop]
  intro hcon
  exact Bool.false_ne_true hcon.1

theorem fetchAllLoop_allNext (u : Nat → List Booking × Bool) (m : Nat) :
    ∀ (n c : Nat) (a : List Booking) (k d : Nat), c + n = m + 1 →
      (∀ j, c ≤ j → j ≤ m → (u j).2 = true) →
      ((fetchAllLoop u m c c true a k d).totalPages = m + 1 ∧
       (fetchAllLoop u m c c true a k d).calls = k + n ∧
       (fetchAllLoop u m c c true a k d).delays = d + n) := by
  intro n
  induction n with
  | zero =>
    intro c a k d hc _
    rw [fetchAllLoop_stop u m c c true a k d (by omega)]
    dsimp only
    refine ⟨by omega, rfl, rfl⟩
  | succ n ih =>
    intro c a k d hc hall
    have hcm : c ≤ m := by omega
    rw [fetchAllLoop_next u m c c a k d hcm (hall c le_rfl hcm)]
    have h2 := ih (c + 1) (a ++ (u c).1) (k + 1) (d + 1) (by omega)
      (fun j h1 h2 => hall j (by omega) h2)
    refine ⟨h2.1, by omega, by omega⟩

theorem fetchAllLoop_stopAt (u : Nat → List Booking × Bool) (m j0 : Nat)
    (hstop : (u j0).2 = false) (hjm : j0 ≤ m) :
    ∀ (n c : Nat) (a : List Booking) (k d : Nat), c + n = j0 →
      (∀ j, c ≤ j → j < j0 → (u j).2 = true) →
      ((fetchAllLoop u m c c true a k d).totalPages = j0 ∧
       (fetchAllLoop u m c c true a k d).calls = k + n + 1 ∧
       (fetchAllLoop u m c c true a k d).delays = d + n) := by
  intro n
  induction n with
  | zero =>
    intro c a k d hc _
    have hcj : c = j0 := by omega
    subst hcj
    rw [fetchAllLoop_last u m c c a k d hjm hstop]
    exact ⟨rfl, rfl, rfl⟩
  | succ n ih =>
    intro c a k d hc hpre
    have hcm : c ≤ m := by omega
    rw [fetchAllLoop_next u m c c a k d hcm (hpre c le_rfl (by omega))]
    have h2 := ih (c + 1) (a ++ (u c).1) (k + 1) (d + 1) (by omega)
      (fun j h1 h2 => hpre j (by omega) h2)
    refine ⟨h2.1, by omega, by omega⟩

theorem fetchAllLoop_calls_le (u : Nat → List Booking × Bool) (m : Nat) :
    ∀ (n c t : Nat) (hm : Bool) (a : List Booking) (k d : Nat), m + 1 ≤ c + n →
      (fetchAllLoop u m c t hm a k d).calls ≤ k + n := by
  intro n
  induction n with
  | zero =>
    intro c t hm a k d hc
    rw [fetchAllLoop_stop u m c t hm a k d (by omega)]
    dsimp only
    omega
  | succ n ih =>
    intro c t hm a k d hc
    cases hm with
    | false =>
      rw [fetchAllLoop_stop u m c t false a k d (by simp)]
      dsimp only
      omega
    | true =>
      by_cases hcm : c ≤ m
      · cases hn : (u c).2 with
        | true =>
          rw [fetchAllLoop_next u m c t a k d hcm hn]
          have := ih (c + 1) (c + 1) true (a ++ (u c).1) (k + 1) (d + 1) (by omega)
          omega
        | false =>
          rw [fetchAllLoop_last u m c t a k d hcm hn]
          dsimp only
          omega
      · rw [fetchAllLoop_stop u m c t true a k d (by omega)]
        dsimp only
        omega

/-- Claim C3.  `fetchAllBookingPages` terminates within `maxPages`
iterations for every upstream: it never issues more than `maxPages`
upstream calls; and against an upstream that always reports that a
next page exists, it issues exactly `maxPages` calls, not more. -/
theorem c3_pagination_termination (u : Nat → List Booking × Bool) (m : Nat)
    (h1 : 1 ≤ m) (hall : ∀ k, (u k).2 = true) :
    (fetchAllBookingPages u m).calls = m ∧
    ∀ v : Nat → List Booking × Bool, (fetchAllBookingPages v m).calls ≤ m := by
  constructor
  · have h := fetchAllLoop_allNext u m m 1 [] 0 0 (by omega) (fun j _ _ => hall j)
    rw [fetchAllBookingPages]
    omega
  · intro v
    have h := fetchAllLoop_calls_le v m m 1 1 true [] 0 0 (by omega)
    rw [fetchAllBookingPages]
    omega

/-- Witness for C3 at `maxPages = 3` and the always-next upstream. -/
theorem c3_pagination_termination_witness :
    (fetchAllBookingPages alwaysNextUpstream 3).calls = 3 ∧
    ∀ v : Nat → List Booking × Bool, (fetchAllBookingPages v 3).calls ≤ 3 :=
  c3_pagination_termination alwaysNextUpstream 3 (by omega) (fun _ => rfl)

/-- Claim C10.  When the loop stops because the upstream reported no
next page (first such page `j0` within the cap), the returned
`totalPages` equals the number of pages fetched (both are `j0`) and
only `j0 - 1` inter-page delays run; when the loop stops because the
page cap was reached while the upstream still reported a next page,
`totalPages` equals the number of pages fetched plus one, and the
number of delays equals the number of fetches — i.e. the final delay
runs even though no further page is fetched. -/
theorem c10_totalPages_and_delay (u : Nat → List Booking × Bool) (m j0 : Nat)
    (h1 : 1 ≤ j0) (hjm : j0 ≤ m) (hstop : (u j0).2 = false)
    (hpre : ∀ j, 1 ≤ j → j < j0 → (u j).2 = true) :
    ((fetchAllBookingPages u m).totalPages = (fetchAllBookingPages u m).calls ∧
     (fetchAllBookingPages u m).calls = j0 ∧
     (fetchAllBookingPages u m).delays = j0 - 1) ∧
    ∀ (v : Nat → List Booking × Bool) (mv : Nat), 1 ≤ mv →
      (∀ k, 1 ≤ k → k ≤ mv → (v k).2 = true) →
      ((fetchAllBookingPages v mv).totalPages = (fetchAllBookingPages v mv).calls + 1 ∧
       (fetchAllBookingPages v mv).delays = (fetchAllBookingPages v mv).calls) := by
  constructor
  · have h := fetchAllLoop_stopAt u m j0 hstop hjm (j0 - 1) 1 [] 0 0 (by omega)
      (fun j hj1 hj2 => hpre j hj1 hj2)
    rw [fetchAllBookingPages]
    refine ⟨by omega, by omega, by omega⟩
  · intro v mv hmv hall
    have h := fetchAllLoop_allNext v mv mv 1 [] 0 0 (by omega)
      (fun j hj1 hj2 => hall j hj1 hj2)
    rw [fetchAllBookingPages]
    refine ⟨by omega, by omega⟩

/-- Witness for C10: the upstream that stops after page 2, with cap 5;
and (inside the conclusion) the capped case instantiated by the
theorem's second conjunct. -/
theorem c10_totalPages_and_delay_witness :
    ((fetchAllBookingPages stopsAtTwoUpstream 5).totalPages
        = (fetchAllBookingPages stopsAtTwoUpstream 5).calls ∧
     (fetchAllBookingPages stopsAtTwoUpstream 5).calls = 2 ∧
     (fetchAllBookingPages stopsAtTwoUpstream 5).delays = 2 - 1) ∧
    ∀ (v : Nat → List Booking × Bool) (mv : Nat), 1 ≤ mv →
      (∀ k, 1 ≤ k → k ≤ mv → (v k).2 = true) →
      ((fetchAllBookingPages v mv).totalPages = (fetchAllBookingPages v mv).calls + 1 ∧
       (fetchAllBookingPages v mv).delays = (fetchAllBookingPages v mv).calls) :=
  c10_totalPages_and_delay stopsAtTwoUpstream 5 2 (by omega) (by omega) rfl
    (fun j hj1 hj2 => by
      have hj : j = 1 := by omega
      rw [hj]
      rfl)

theorem revenueStep_foldl :
    ∀ (bs : List Booking) (acc : RevenueTotals),
      (bs.foldl revenueStep acc).totalPrice
          = acc.totalPrice + (bs.map (fun b => numOr0 b.price)).sum ∧
      (bs.foldl revenueStep acc).totalDeposit
          = acc.totalDeposit + (bs.map (fun b => numOr0 b.deposit)).sum ∧
      (bs.foldl revenueStep acc).bookingCount = acc.bookingCount + bs.length := by
  intro bs
  induction bs with
  | nil => intro acc; simp
  | cons b t ih =>
    intro acc
    have h := ih (revenueStep acc b)
    simp only [List.foldl_cons, List.map_cons, List.sum_cons, List.length_cons]
    refine ⟨?_, ?_, ?_⟩
    · rw [h.1]
      simp [revenueStep]
      ring
    · rw [h.2.1]
      simp [revenueStep]
      ring
    · rw [h.2.2]
      simp [revenueStep]
      omega

theorem filter_notCancelled_eq_self (bs : List Booking)
    (h : ∀ b ∈ bs, (b : Booking).status ≠ "cancelled") :
    bs.filter notCancelled = bs := by
  apply List.filter_eq_self.mpr
  intro b hb
  simp only [notCancelled, bne_iff_ne, ne_eq]
  exact h b hb

/-- Claim C4.  For every list of non-cancelled bookings the revenue
view totals satisfy: `totalPrice` is the sum of the price fields,
`totalDeposit` the sum of the deposit fields (non-numeric or missing
values contribute zero while the record is still counted),
`bookingCount` is the number of records, and `outstanding = totalPrice
- totalDeposit`; in particular the spec's example with price/deposit
pairs (100,50), (200,0), (non-numeric,20) yields totals
300/70/230 with bookingCount 3. -/
theorem c4_revenue_aggregation :
    (∀ bs : List Booking, (∀ b ∈ bs, (b : Booking).status ≠ "cancelled") →
      ((revenueView bs).1.totalPrice = (bs.map (fun b => numOr0 b.price)).sum ∧
       (revenueView bs).1.totalDeposit = (bs.map (fun b => numOr0 b.deposit)).sum ∧
       (revenueView bs).1.bookingCount = bs.length ∧
       (revenueView bs).1.outstanding
         = (revenueView bs).1.totalPrice - (revenueView bs).1.totalDeposit)) ∧
    (revenueView revExample).1
      = { totalPrice := 300, totalDeposit := 70, bookingCount := 3, outstanding := 230 } := by
  constructor
  · intro bs h
    have hfilter : bs.filter notCancelled = bs := filter_notCancelled_eq_self bs h
    refine ⟨?_, ?_, ?_, rfl⟩
    · show ((bs.filter notCancelled).foldl revenueStep
          { totalPrice := 0, totalDeposit := 0, bookingCount := 0, outstanding := 0 }).totalPrice
        = (bs.map (fun b => numOr0 b.price)).sum
      rw [hfilter, (revenueStep_foldl bs _).1]
      simp
    · show ((bs.filter notCancelled).foldl revenueStep
          { totalPrice := 0, totalDeposit := 0, bookingCount := 0, outstanding := 0 }).totalDeposit
        = (bs.map (fun b => numOr0 b.deposit)).sum
      rw [hfilter, (revenueStep_foldl bs _).2.1]
      simp
    · show ((bs.filter notCancelled).foldl revenueStep
          { totalPrice := 0, totalDeposit := 0, bookingCount := 0, outstanding := 0 }).bookingCount
        = bs.length
      rw [hfilter, (revenueStep_foldl bs _).2.2]
      simp
  · simp only [revenueView, revExample, revBooking1, revBooking2, revBooking3,
      List.filter, notCancelled, numOr0, List.foldl, revenueStep]
    norm_num

/-- Witness for C4 at the spec's three-booking example. -/
theorem c4_revenue_aggregation_witness :
    (∀ b ∈ revExample, (b : Booking).status ≠ "cancelled") ∧
    ((revenueView revExample).1.totalPrice
        = (revExample.map (fun b => numOr0 b.price)).sum ∧
     (revenueView revExample).1.totalDeposit
        = (revExample.map (fun b => numOr0 b.deposit)).sum ∧
     (revenueView revExample).1.bookingCount = revExample.length ∧
     (revenueView revExample).1.outstanding
        = (revenueView revExample).1.totalPrice - (revenueView revExample).1.totalDeposit) :=
  ⟨by decide, c4_revenue_aggregation.1 revExample (by decide)⟩

/-- Claim C5 (amended).  For every query date `D` and upstream result,
the housekeeping view classifies a non-cancelled current-occupancy
record as stayover exactly when its departure date differs from `D`
(a record departing on `D` is not a stayover); but the `stayovers`
count reported in the summary is computed as occupied minus departing
(`current.length - departures.length`), which need not equal the
number of records so classified. -/
theorem c5_stayover_classification (cur dep arr : List Booking) (date : String) :
    ((housekeepingView cur dep arr date).stayovers
        = (cur.filter notCancelled).filter (fun c => c.departure != date)) ∧
    ((housekeepingView cur dep arr date).stayoversCount
        = ((cur.filter notCancelled).length : Int)
            - ((dep.filter notCancelled).length : Int)) ∧
    (∀ b : Booking, b ∈ (housekeepingView cur dep arr date).stayovers ↔
        (b ∈ cur.filter notCancelled ∧ b.departure ≠ date)) := by
  refine ⟨rfl, rfl, ?_⟩
  intro b
  show b ∈ (cur.filter notCancelled).filter (fun c => c.departure != date) ↔ _
  rw [List.mem_filter]
  simp [bne_iff_ne]

/-- Witness for C5's amended theorem at the spec's concrete scenario:
departure "2024-05-11" with query date "2024-05-10" is a stayover;
membership instantiated at the concrete record. -/
theorem c5_stayover_classification_witness :
    hkCurrentGuest ∈
        (housekeepingView [hkCurrentGuest] [hkDepartingGuest] [] "2024-05-10").stayovers ∧
    hkCurrentGuest ∈ [hkCurrentGuest].filter notCancelled ∧
    hkCurrentGuest.departure ≠ "2024-05-10" :=
  ⟨((c5_stayover_classification [hkCurrentGuest] [hkDepartingGuest] [] "2024-05-10").2.2
      hkCurrentGuest).mpr (by decide),
   by decide, by decide⟩

/-- Counterexample to claim C5 as stated: with one non-cancelled
current-occupancy record departing "2024-05-11" and one departure
record (id 2, departing "2024-05-10") that is absent from the current
set, the classified stayover list for query date "2024-05-10" has one
record, but the summary reports `stayovers = 0` (`current.length -
departures.length = 1 - 1`). -/
theorem c5_counterexample :
    (housekeepingView [hkCurrentGuest] [hkDepartingGuest] [] "2024-05-10").stayovers.length
        = 1 ∧
    (housekeepingView [hkCurrentGuest] [hkDepartingGuest] [] "2024-05-10").stayoversCount
        = 0 ∧
    (housekeepingView [hkCurrentGuest] [hkDepartingGuest] [] "2024-05-10").stayoversCount
      ≠ ((housekeepingView [hkCurrentGuest] [hkDepartingGuest] [] "2024-05-10").stayovers.length : Int) := by
  decide

/-- Claim C6 (amended).  The calendar view's end date equals the start
date shifted forward by `days` calendar days — with correct month
rollover, e.g. 2024-01-31 + 1 = 2024-02-01 — for every host timezone
with a constant UTC offset (UTC, the fixed UTC+6 zone itself, UTC-5,
any other), because the date is anchored to midnight at UTC+6 before
shifting.  The January example is checked at offsets 0, +360 and -300
via the Gregorian conversions. -/
theorem c6_date_window_anchoring :
    (∀ o s d : Int, calendarEndDay (fixedOffset o) s d = s + d) ∧
    civilFromDays (calendarEndDay (fixedOffset 0) (daysFromCivil 2024 1 31) 1)
      = (2024, 2, 1) ∧
    civilFromDays (calendarEndDay (fixedOffset 360) (daysFromCivil 2024 1 31) 1)
      = (2024, 2, 1) ∧
    civilFromDays (calendarEndDay (fixedOffset (-300)) (daysFromCivil 2024 1 31) 1)
      = (2024, 2, 1) := by
  refine ⟨?_, by decide, by decide, by decide⟩
  intro o s d
  show Int.fdiv (1440 * (Int.fdiv (s * 1440 - dhakaOffset + o) 1440 + d)
      + (s * 1440 - dhakaOffset + o
          - 1440 * Int.fdiv (s * 1440 - dhakaOffset + o) 1440)
      - o + dhakaOffset) 1440 = s + d
  have h : 1440 * (Int.fdiv (s * 1440 - dhakaOffset + o) 1440 + d)
      + (s * 1440 - dhakaOffset + o
          - 1440 * Int.fdiv (s * 1440 - dhakaOffset + o) 1440)
      - o + dhakaOffset = 1440 * (s + d) := by
    simp only [dhakaOffset]
    ring
  rw [h]
  exact Int.mul_fdiv_cancel_left (s + d) (by norm_num)

/-- Counterexample to claim C6 as stated: the end date is NOT
independent of the executing host's timezone.  On a host in
America/New_York across the 2024 spring-forward transition, the window
2024-03-08 + 7 days ends on 2024-03-14 (start + 6), not 2024-03-15:
`setDate` preserves the host-local time-of-day over a transition where
the host offset changes by one hour, pulling the instant one hour
before midnight UTC+6. -/
theorem c6_counterexample :
    calendarEndDay nySpring2024 (daysFromCivil 2024 3 8) 7
        ≠ daysFromCivil 2024 3 8 + 7 ∧
    calendarEndDay nySpring2024 (daysFromCivil 2024 3 8) 7
        = daysFromCivil 2024 3 8 + 6 := by
  decide

/-- Claim C7 (amended).  When the decoded direct-API payload carries an
explicit failure flag (`success === false`) or a truthy error message,
`fetchBeds24Direct` fails with an error carrying the upstream's message
(or the fixed fallback text when only the flag is present).  However,
`fetchBeds24` catches that failure, and returns whatever the proxy
fallback produced — the proxy path never inspects the payload's failure
indicators — so the upstream-reported failure reaches `fetchBeds24`'s
caller only if the proxy call itself fails. -/
theorem c7_upstream_failure (p : UpstreamPayload)
    (h : p.success = some false ∨ strTruthy p.error = true) :
    (∃ msg, fetchBeds24Direct (Except.ok p) = Except.error msg) ∧
    (strTruthy p.error = true →
      fetchBeds24Direct (Except.ok p)
        = Except.error (p.error.getD "API request failed")) ∧
    (∀ proxyResult, (fetchBeds24 true (Except.ok p) proxyResult).result = proxyResult ∧
      (fetchBeds24 true (Except.ok p) proxyResult).useDirectApiAfter = false) := by
  have hcond : (p.success == some false || strTruthy p.error) = true := by
    rcases h with h1 | h1
    · simp [h1]
    · simp [h1]
  have herr : fetchBeds24Direct (Except.ok p) = Except.error
      (match p.error with
       | some s => if s != "" then s else "API request failed"
       | none => "API request failed") := by
    simp [fetchBeds24Direct, directPayloadCheck, hcond]
  refine ⟨⟨_, herr⟩, ?_, ?_⟩
  · intro ht
    rw [herr]
    cases he : p.error with
    | none => rw [he] at ht; simp [strTruthy] at ht
    | some s =>
      rw [he] at ht
      simp only [strTruthy] at ht
      simp [ht]
  · intro proxyResult
    constructor <;> simp [fetchBeds24, herr]

/-- Witness for C7's amended theorem at a concrete failing payload. -/
theorem c7_upstream_failure_witness :
    (failedPayload.success = some false ∨ strTruthy failedPayload.error = true) ∧
    ((∃ msg, fetchBeds24Direct (Except.ok failedPayload) = Except.error msg) ∧
     (strTruthy failedPayload.error = true →
       fetchBeds24Direct (Except.ok failedPayload)
         = Except.error (failedPayload.error.getD "API request failed")) ∧
     (∀ proxyResult,
       (fetchBeds24 true (Except.ok failedPayload) proxyResult).result = proxyResult ∧
       (fetchBeds24 true (Except.ok failedPayload) proxyResult).useDirectApiAfter = false)) :=
  ⟨Or.inl rfl, c7_upstream_failure failedPayload (Or.inl rfl)⟩

/-- Counterexample to claim C7 as stated: a query whose direct payload
carries `success: false` does NOT fail at the `fetchBeds24` level — the
failure is converted into the proxy fallback's successful result. -/
theorem c7_counterexample :
    failedPayload.success = some false ∧
    (fetchBeds24 true (Except.ok failedPayload) (Except.ok proxyPayload)).result
      = Except.ok proxyPayload ∧
    (fetchBeds24 true (Except.ok failedPayload) (Except.ok proxyPayload)).route
      = FetchRoute.proxy :=
  ⟨rfl, rfl, rfl⟩

/-- Claim C8.  A search request with neither a truthy `q` nor a truthy
`checkIn`, and a range request with `from` or `to` missing, each fail
with the 400 validation response and issue zero upstream calls. -/
theorem c8_validation_before_upstream
    (q checkIn checkOut fromParam toParam typeParam : Option String)
    (u v : Nat → List Booking × Bool)
    (hq : strTruthy q = false) (hci : strTruthy checkIn = false)
    (hft : strTruthy fromParam = false ∨ strTruthy toParam = false) :
    searchHandler q checkIn checkOut u
      = { status := 400,
          errorMsg := some "Required: q (search term) or checkIn date",
          upstreamCalls := 0 } ∧
    rangeHandler fromParam toParam typeParam v
      = { status := 400,
          errorMsg := some "Required: from and to dates (YYYY-MM-DD format)",
          upstreamCalls := 0 } := by
  constructor
  · simp [searchHandler, hq, hci]
  · rcases hft with h1 | h1 <;> simp [rangeHandler, h1]

/-- Witness for C8 with all parameters absent. -/
theorem c8_validation_before_upstream_witness :
    strTruthy (none : Option String) = false ∧
    (searchHandler none none none alwaysNextUpstream
       = { status := 400,
           errorMsg := some "Required: q (search term) or checkIn date",
           upstreamCalls := 0 } ∧
     rangeHandler none none none alwaysNextUpstream
       = { status := 400,
           errorMsg := some "Required: from and to dates (YYYY-MM-DD format)",
           upstreamCalls := 0 }) :=
  ⟨rfl, c8_validation_before_upstream none none none none none none
    alwaysNextUpstream alwaysNextUpstream rfl rfl (Or.inl rfl)⟩

/-- Claim C9.  Once a direct upstream call throws, the process-wide
`useDirectApi` flag becomes `false`; from a `false` flag every
subsequent `fetchBeds24` call — over any trace of oracle outcomes — is
routed through the proxy fallback and the flag never returns to
`true` (the only writes to the flag in the repository are the
initialiser and the `catch` that clears it). -/
theorem c9_useDirectApi_latch :
    (∀ (i : StepInput) (e : String),
       fetchBeds24Direct i.transport = Except.error e → (stepFetch true i).1 = false) ∧
    (∀ trace : List StepInput, runFetches false trace = false) ∧
    (∀ i : StepInput, (stepFetch false i).2.route = FetchRoute.proxy ∧
       (stepFetch false i).2.result = i.proxyResult) := by
  refine ⟨?_, ?_, ?_⟩
  · intro i e he
    simp [stepFetch, fetchBeds24, he]
  · intro trace
    induction trace with
    | nil => rfl
    | cons i rest ih =>
      rw [runFetches]
      exact ih
  · intro i
    exact ⟨rfl, rfl⟩

/-- Witness for C9: a direct call that fails with the upstream's
message latches the flag to `false`; a subsequent trace stays on the
proxy. -/
theorem c9_useDirectApi_latch_witness :
    fetchBeds24Direct (Except.ok failedPayload)
        = Except.error "upstream rejected the request" ∧
    (stepFetch true { transport := Except.ok failedPayload,
                      proxyResult := Except.ok proxyPayload }).1 = false ∧
    runFetches false [{ transport := Except.ok failedPayload,
                        proxyResult := Except.ok proxyPayload }] = false ∧
    ((stepFetch false { transport := Except.ok failedPayload,
                        proxyResult := Except.ok proxyPayload }).2.route
        = FetchRoute.proxy ∧
     (stepFetch false { transport := Except.ok failedPayload,
                        proxyResult := Except.ok proxyPayload }).2.result
        = Except.ok proxyPayload) :=
  ⟨rfl,
   c9_useDirectApi_latch.1 _ "upstream rejected the request" rfl,
   c9_useDirectApi_latch.2.1 _,
   c9_useDirectApi_latch.2.2 _⟩

end Miami
